import Mathlib

/-!
Shallow embedding of `gopherforms` (`user.go`): the per-connection form
session tracker and the form/element encoder.

Modelling conventions:
* Go `map[string]interface{}` documents become association lists
  `List (String × Val)`; map order is irrelevant for the properties proved.
* `uint32` counters are `Nat` reduced mod `2^32` at each increment.
* The Go `form.Form` / `form.Element` interfaces are open: the inductive
  types below carry an extra `other` constructor standing for any value
  outside the closed variant sets of the source's type switches.
* A Go `panic` during encoding is modelled as `Option.none`.
* The iteration-order nondeterminism of `for k := range u.forms` during
  eviction is modelled by an explicit choice index supplied to `sendForm`.
* Numeric `float64` fields (slider min/max/step/default) are only copied
  by the code, never computed with; they are carried as `Rat`.
-/

namespace Gopherforms

/-- JSON-like values appearing in the encoder's documents. -/
inductive Val where
  | s : String → Val
  | b : Bool → Val
  | f : Rat → Val
  | i : Int → Val
  | strs : List String → Val
  | obj : List (String × Val) → Val
  | arr : List (List (String × Val)) → Val

/-- A document: the Go `map[string]interface{}` built by the encoder. -/
abbrev Doc := List (String × Val)

/-- Elements of a Custom form, mirroring `dragonfly/player/form` element
types used by `elemToMap`; `other` stands for any unrecognized variant. -/
inductive Element where
  | toggle (text : String) (dflt : Bool)
  | input (text dflt placeholder : String)
  | label (text : String)
  | slider (text : String) (min max stepSize dflt : Rat)
  | dropdown (text : String) (options : List String) (defaultIndex : Int)
  | stepSlider (text : String) (options : List String) (defaultIndex : Int)
  | other
  deriving DecidableEq

/-- A menu button: text plus an image reference ("" means no image). -/
structure Button where
  text : String
  image : String
  deriving DecidableEq

/-- The shape of a form, mirroring the `form.Custom` / `form.Menu` /
`form.Modal` cases of `SendForm`'s type switch; `other` stands for any
`form.Form` value outside those three variants. A Modal carries exactly
two buttons, per the `form.Modal` contract. -/
inductive FormData where
  | custom (title : String) (elements : List Element)
  | menu (title body : String) (buttons : List Button)
  | modal (title body : String) (button1 button2 : Button)
  | other

/-- A form value: its shape together with its `SubmitJSON` capability,
modelled as a pure predicate on the raw response bytes (`true` means the
submit returned a nil error). -/
structure Form where
  data : FormData
  submit : List Nat → Bool

/-- `elemToMap` from `user.go`: encodes one element to its map
representation; `none` models the `panic("should never happen")` fallback
for an unrecognized variant. -/
def elemToMap : Element → Option Doc
  | .toggle text dflt =>
      some [("type", .s "toggle"), ("text", .s text), ("default", .b dflt)]
  | .input text dflt placeholder =>
      some [("type", .s "input"), ("text", .s text), ("default", .s dflt),
            ("placeholder", .s placeholder)]
  | .label text =>
      some [("type", .s "label"), ("text", .s text)]
  | .slider text mn mx stepSize dflt =>
      some [("type", .s "slider"), ("text", .s text), ("min", .f mn),
            ("max", .f mx), ("step", .f stepSize), ("default", .f dflt)]
  | .dropdown text options defaultIndex =>
      some [("type", .s "dropdown"), ("text", .s text),
            ("default", .i defaultIndex), ("options", .strs options)]
  | .stepSlider text options defaultIndex =>
      some [("type", .s "step_slider"), ("text", .s text),
            ("default", .i defaultIndex), ("steps", .strs options)]
  | .other => none

/-- Whether a menu button image reference is rendered with type "url":
`strings.HasPrefix(button.Image, "http:") || strings.HasPrefix(button.Image, "https:")`. -/
def imageIsUrl (image : String) : Bool :=
  String.isPrefixOf "http:" image || String.isPrefixOf "https:" image

/-- The per-button map built in the `form.Menu` branch of `SendForm`:
`{"text": ...}` plus an `image` object when the image reference is
non-empty. -/
def buttonToMap (button : Button) : Doc :=
  let v : Doc := [("text", .s button.text)]
  if button.image ≠ "" then
    v ++ [("image", .obj [("type", .s (if imageIsUrl button.image then "url" else "path")),
                          ("data", .s button.image)])]
  else v

/-- The loop `for _, e := range frm.Elements() { n = append(n, elemToMap(e)) }`
of the `form.Custom` branch: encode each element in order; `none` models a
panic propagated out of `elemToMap`. -/
def elemsToMaps : List Element → Option (List Doc)
  | [] => some []
  | e :: rest => do
      let d ← elemToMap e
      let ds ← elemsToMaps rest
      pure (d :: ds)

/-- The document `m` built by `SendForm`'s type switch on the form.
`none` models a panic propagated from `elemToMap`; an unrecognized form
variant leaves `m` as the empty map (the switch has no default case). -/
def formToMap : FormData → Option Doc
  | .custom title elements => do
      let n ← elemsToMaps elements
      pure [("type", .s "custom_form"), ("title", .s title), ("content", .arr n)]
  | .menu title body buttons =>
      some [("type", .s "form"), ("title", .s title), ("content", .s body),
            ("buttons", .arr (buttons.map buttonToMap))]
  | .modal title body button1 button2 =>
      some [("type", .s "modal"), ("title", .s title), ("content", .s body),
            ("button1", .s button1.text), ("button2", .s button2.text)]
  | .other => some []

/-- `nullBytes` from `user.go`: the bytes of the string "null" followed by
a newline (`[]byte("null\n")`). -/
def nullBytes : List Nat := [110, 117, 108, 108, 10]

/-- The mutable session state of a `User`: the pending table `forms`, and
the `localFormId` / `remoteFormId` counters (uint32, kept mod `2^32`). -/
structure UserState where
  forms : List (Nat × Form)
  localFormId : Nat
  remoteFormId : Nat

/-- `NewUser`: fresh state — empty pending table, both counters zero. -/
def newUser : UserState :=
  { forms := [], localFormId := 0, remoteFormId := 0 }

/-- Go map lookup `u.forms[id]`. -/
def mapLookup (k : Nat) (m : List (Nat × Form)) : Option Form :=
  (m.find? (fun p => p.1 == k)).map Prod.snd

/-- Go map `delete(u.forms, k)`: the key is removed entirely. -/
def mapErase (k : Nat) (m : List (Nat × Form)) : List (Nat × Form) :=
  m.filter (fun p => p.1 != k)

/-- Go map assignment `u.forms[id] = f`: replaces any entry at the key,
otherwise adds one. -/
def mapInsert (k : Nat) (v : Form) (m : List (Nat × Form)) : List (Nat × Form) :=
  mapErase k m ++ [(k, v)]

/-- `HandleForm` from `user.go`. Returns the new state, the boolean the
method returns, and whether `SubmitJSON` was invoked. If the id is absent
the state is untouched and the result is `false`; if present the entry is
deleted first, then a `"null\n"` or empty payload short-circuits to `true`
without submit, otherwise the result is the success of `SubmitJSON`. -/
def handleForm (formId : Nat) (responseData : List Nat) (u : UserState) :
    UserState × Bool × Bool :=
  match mapLookup formId u.forms with
  | some f =>
      let u' := { u with forms := mapErase formId u.forms }
      if responseData = nullBytes ∨ responseData.length = 0 then
        (u', true, false)
      else if f.submit responseData then (u', true, true)
      else (u', false, true)
  | none => (u, false, false)

/-- `SendForm` from `user.go`. `choice` resolves the arbitrary map
iteration order of the eviction loop: when `len(forms) > 10` the entry at
index `choice % forms.length` is deleted. Returns the new state, the
assigned id, and the outgoing document; `none` models a panic during
encoding. -/
def sendForm (choice : Nat) (f : Form) (u : UserState) :
    Option (UserState × Nat × Doc) := do
  let doc ← formToMap f.data
  let forms₀ :=
    if u.forms.length > 10 then u.forms.eraseIdx (choice % u.forms.length)
    else u.forms
  let id := (u.localFormId + 1) % 2 ^ 32
  let u' := { u with forms := mapInsert id f forms₀, localFormId := id }
  pure (u', id, doc)

/-- One interaction with the session tracker. -/
inductive Op where
  | send (choice : Nat) (f : Form)
  | handle (formId : Nat) (responseData : List Nat)

/-- Run one operation; `none` aborts the run on an encoding panic. -/
def stepOp (u : UserState) : Op → Option UserState
  | .send choice f => (sendForm choice f u).map (fun r => r.1)
  | .handle formId responseData => some (handleForm formId responseData u).1

/-- Run a list of operations from a given state. -/
def runOps (u : UserState) : List Op → Option UserState
  | [] => some u
  | op :: rest => do runOps (← stepOp u op) rest

/-- Number of `send` operations in a list of operations. -/
def numSends : List Op → Nat
  | [] => 0
  | .send _ _ :: rest => numSends rest + 1
  | .handle _ _ :: rest => numSends rest

mutual

/-- Modelled from the spec: the document is "serialized to a textual
self-describing format (JSON)" by `json.Marshal`, which belongs to Go's
standard library, not to this repository. A value is rendered as in JSON:
strings quoted, booleans as `true`/`false`, numbers in decimal, arrays
bracketed, objects braced. Two simplifications that no theorem relies on:
string escaping is not modelled (no emitted key or tag needs it), and
object fields are rendered in association-list order whereas `json.Marshal`
sorts map keys (documents are unordered maps, so this is presentation
only). -/
def valJson : Val → String
  | .s str => "\"" ++ str ++ "\""
  | .b true => "true"
  | .b false => "false"
  | .i n => toString n
  | .f q => toString q
  | .strs [] => "[]"
  | .strs (x :: xs) =>
      "[\"" ++ x ++ "\"" ++ String.join (xs.map (fun y => ",\"" ++ y ++ "\"")) ++ "]"
  | .obj d => "\x7b" ++ fieldsJson d ++ "\x7d"
  | .arr ds => "[" ++ docsJson ds ++ "]"

/-- Comma-separated `"key":value` renderings of an object's fields. -/
def fieldsJson : List (String × Val) → String
  | [] => ""
  | [(k, v)] => "\"" ++ k ++ "\":" ++ valJson v
  | (k, v) :: rest => "\"" ++ k ++ "\":" ++ valJson v ++ "," ++ fieldsJson rest

/-- Comma-separated renderings of a list of objects. -/
def docsJson : List (List (String × Val)) → String
  | [] => ""
  | [d] => "\x7b" ++ fieldsJson d ++ "\x7d"
  | d :: rest => "\x7b" ++ fieldsJson d ++ "\x7d," ++ docsJson rest

end

/-- Modelled from the spec: `json.Marshal` applied to a whole document
(the `b` of `b, _ := json.Marshal(m)`); in particular the empty document
serializes to the two bytes `{}`. -/
def marshalDoc (d : Doc) : String := "\x7b" ++ fieldsJson d ++ "\x7d"

/-- A concrete modal form used to instantiate theorems. -/
def testForm : Form :=
  { data := .modal "t" "b" ⟨"Yes", ""⟩ ⟨"No", ""⟩, submit := fun _ => true }

/-- The document `SendForm` builds for `testForm`. -/
def testDoc : Doc :=
  [("type", .s "modal"), ("title", .s "t"), ("content", .s "b"),
   ("button1", .s "Yes"), ("button2", .s "No")]

/-- The session state after sending `testForm` on a fresh session. -/
def testSentState : UserState :=
  { forms := [(1, testForm)], localFormId := 1, remoteFormId := 0 }

/-- Eleven consecutive `Send` calls of `testForm`, no responses. -/
def elevenSends : List Op := List.replicate 11 (Op.send 0 testForm)

/-! ### Helper lemmas about the map model -/

theorem mapLookup_mapErase_self (k : Nat) (m : List (Nat × Form)) :
    mapLookup k (mapErase k m) = none := by
  have h : (mapErase k m).find? (fun p => p.1 == k) = none := by
    rw [List.find?_eq_none]
    intro p hp
    have := (List.mem_filter.mp hp).2
    simpa using this
  simp [mapLookup, h]

theorem mapLookup_mapInsert_self (k : Nat) (v : Form) (m : List (Nat × Form)) :
    mapLookup k (mapInsert k v m) = some v := by
  have h : (mapErase k m).find? (fun p => p.1 == k) = none := by
    rw [List.find?_eq_none]
    intro p hp
    have := (List.mem_filter.mp hp).2
    simpa using this
  simp [mapLookup, mapInsert, List.find?_append, h, List.find?]

theorem mapLookup_eq_none_of_forall_ne (k : Nat) (m : List (Nat × Form))
    (h : ∀ p ∈ m, p.1 ≠ k) : mapLookup k m = none := by
  have hf : m.find? (fun p => p.1 == k) = none := by
    rw [List.find?_eq_none]
    intro p hp
    simpa using h p hp
  simp [mapLookup, hf]

theorem mapErase_eq_self_of_forall_ne (k : Nat) (m : List (Nat × Form))
    (h : ∀ p ∈ m, p.1 ≠ k) : mapErase k m = m := by
  rw [mapErase, List.filter_eq_self]
  intro p hp
  simpa using h p hp

/-! ### Helper lemmas about `sendForm` and `handleForm` -/

theorem sendForm_spec {c : Nat} {f : Form} {u u' : UserState} {id : Nat} {d : Doc}
    (h : sendForm c f u = some (u', id, d)) :
    formToMap f.data = some d ∧ id = (u.localFormId + 1) % 2 ^ 32 ∧
    u'.localFormId = id ∧ u'.remoteFormId = u.remoteFormId ∧
    u'.forms = mapInsert id f
      (if u.forms.length > 10 then u.forms.eraseIdx (c % u.forms.length)
       else u.forms) := by
  unfold sendForm at h
  cases hd : formToMap f.data with
  | none => rw [hd] at h; simp at h
  | some doc =>
      rw [hd] at h
      simp only [Option.bind_eq_bind, Option.some_bind, pure, Option.some.injEq,
        Prod.mk.injEq] at h
      obtain ⟨hu, hid, hdoc⟩ := h
      subst hu hid hdoc
      exact ⟨rfl, rfl, rfl, rfl, rfl⟩

theorem handleForm_fst_of_lookup_some {formId : Nat} (resp : List Nat)
    {u : UserState} {f : Form} (hf : mapLookup formId u.forms = some f) :
    (handleForm formId resp u).1 = { u with forms := mapErase formId u.forms } := by
  unfold handleForm
  rw [hf]
  dsimp only
  split
  · rfl
  · split <;> rfl

theorem handleForm_lookup_none {formId : Nat} (resp : List Nat) {u : UserState}
    (hf : mapLookup formId u.forms = none) :
    handleForm formId resp u = (u, false, false) := by
  unfold handleForm
  rw [hf]

theorem handleForm_fst_cases (formId : Nat) (resp : List Nat) (u : UserState) :
    (handleForm formId resp u).1 = u ∨
    (handleForm formId resp u).1 = { u with forms := mapErase formId u.forms } := by
  cases hf : mapLookup formId u.forms with
  | none =>
      left
      unfold handleForm
      rw [hf]
  | some f => exact Or.inr (handleForm_fst_of_lookup_some resp hf)

/-! ### Reachability invariants -/

/-- After `n` sends (with no uint32 wraparound yet), the local counter is
`n` and every pending key is one of the ids `1..n`. -/
def SessionInv (n : Nat) (u : UserState) : Prop :=
  u.localFormId = n ∧ ∀ p ∈ u.forms, 1 ≤ p.1 ∧ p.1 ≤ n

theorem sessionInv_newUser : SessionInv 0 newUser := by
  constructor
  · rfl
  · intro p hp
    simp [newUser] at hp

theorem sessionInv_send {n c : Nat} {f : Form} {u u' : UserState} {id : Nat} {d : Doc}
    (hn : n + 1 < 2 ^ 32) (hinv : SessionInv n u)
    (hsend : sendForm c f u = some (u', id, d)) :
    id = n + 1 ∧ SessionInv (n + 1) u' := by
  obtain ⟨hl, hk⟩ := hinv
  obtain ⟨-, hid, hl', -, hforms⟩ := sendForm_spec hsend
  have hid' : id = n + 1 := by
    rw [hid, hl, Nat.mod_eq_of_lt hn]
  refine ⟨hid', hl'.trans hid', ?_⟩
  intro p hp
  rw [hforms, mapInsert] at hp
  rcases List.mem_append.mp hp with hp | hp
  · have hp₁ : p ∈ u.forms := by
      have hmem := (List.mem_filter.mp hp).1
      by_cases hlen : u.forms.length > 10
      · rw [if_pos hlen] at hmem
        exact List.eraseIdx_subset _ _ hmem
      · rwa [if_neg hlen] at hmem
    have := hk p hp₁
    omega
  · have hp' : p = (id, f) := by simpa using hp
    rw [hp', hid']
    omega

theorem sessionInv_handle {n : Nat} (formId : Nat) (resp : List Nat) {u : UserState}
    (hinv : SessionInv n u) : SessionInv n (handleForm formId resp u).1 := by
  obtain ⟨hl, hk⟩ := hinv
  rcases handleForm_fst_cases formId resp u with h | h <;> rw [h]
  · exact ⟨hl, hk⟩
  · exact ⟨hl, fun p hp => hk p (List.mem_filter.mp hp).1⟩

theorem runOps_sessionInv :
    ∀ (ops : List Op) (n : Nat) (u u' : UserState), SessionInv n u →
      n + numSends ops < 2 ^ 32 → runOps u ops = some u' →
      SessionInv (n + numSends ops) u'
  | [], n, u, u', hinv, _, hrun => by
      rw [runOps] at hrun
      cases hrun
      simpa [numSends] using hinv
  | .send c f :: rest, n, u, u', hinv, hn, hrun => by
      rw [runOps] at hrun
      cases hs : sendForm c f u with
      | none => rw [stepOp, hs] at hrun; simp at hrun
      | some r =>
          obtain ⟨u₁, id, d⟩ := r
          rw [stepOp, hs] at hrun
          simp only [Option.map_some, Option.bind_eq_bind, Option.some_bind] at hrun
          have hn₁ : n + 1 < 2 ^ 32 := by
            rw [numSends] at hn
            omega
          obtain ⟨-, hinv₁⟩ := sessionInv_send hn₁ hinv hs
          have := runOps_sessionInv rest (n + 1) u₁ u' hinv₁
            (by rw [numSends] at hn; omega) hrun
          rw [numSends]
          have harith : n + 1 + numSends rest = n + (numSends rest + 1) := by omega
          rwa [harith] at this
  | .handle formId resp :: rest, n, u, u', hinv, hn, hrun => by
      rw [runOps] at hrun
      rw [stepOp] at hrun
      simp only [Option.bind_eq_bind, Option.some_bind] at hrun
      have hinv₁ := sessionInv_handle formId resp hinv
      have := runOps_sessionInv rest n _ u' hinv₁
        (by rw [numSends] at hn; omega) hrun
      rwa [numSends]

/-- Every reachable state satisfies the invariant at its send count. -/
theorem reachable_sessionInv {ops : List Op} {u : UserState}
    (hrun : runOps newUser ops = some u) (hn : numSends ops < 2 ^ 32) :
    SessionInv (numSends ops) u := by
  have := runOps_sessionInv ops 0 newUser u sessionInv_newUser (by omega) hrun
  simpa using this

theorem mapInsert_length_le (k : Nat) (v : Form) (m : List (Nat × Form)) :
    (mapInsert k v m).length ≤ m.length + 1 := by
  rw [mapInsert, List.length_append, List.length_cons, List.length_nil]
  have := List.length_filter_le (fun p => p.1 != k) m
  rw [mapErase]
  omega

theorem sendForm_length_le {c : Nat} {f : Form} {u u' : UserState} {id : Nat} {d : Doc}
    (hlen : u.forms.length ≤ 11) (hsend : sendForm c f u = some (u', id, d)) :
    u'.forms.length ≤ 11 := by
  obtain ⟨-, -, -, -, hforms⟩ := sendForm_spec hsend
  rw [hforms]
  by_cases h10 : u.forms.length > 10
  · rw [if_pos h10]
    have hmod : c % u.forms.length < u.forms.length := Nat.mod_lt _ (by omega)
    have hle := mapInsert_length_le id f (u.forms.eraseIdx (c % u.forms.length))
    rw [List.length_eraseIdx, if_pos hmod] at hle
    omega
  · rw [if_neg h10]
    have hle := mapInsert_length_le id f u.forms
    omega

theorem handleForm_length_le (formId : Nat) (resp : List Nat) (u : UserState) :
    (handleForm formId resp u).1.forms.length ≤ u.forms.length := by
  rcases handleForm_fst_cases formId resp u with h | h <;> rw [h]
  exact List.length_filter_le _ _

theorem runOps_length_le :
    ∀ (ops : List Op) (u u' : UserState), u.forms.length ≤ 11 →
      runOps u ops = some u' → u'.forms.length ≤ 11
  | [], u, u', hlen, hrun => by
      rw [runOps] at hrun
      cases hrun
      exact hlen
  | .send c f :: rest, u, u', hlen, hrun => by
      rw [runOps] at hrun
      cases hs : sendForm c f u with
      | none => rw [stepOp, hs] at hrun; simp at hrun
      | some r =>
          obtain ⟨u₁, id, d⟩ := r
          rw [stepOp, hs] at hrun
          simp only [Option.map_some, Option.bind_eq_bind, Option.some_bind] at hrun
          exact runOps_length_le rest u₁ u' (sendForm_length_le hlen hs) hrun
  | .handle formId resp :: rest, u, u', hlen, hrun => by
      rw [runOps] at hrun
      rw [stepOp] at hrun
      simp only [Option.bind_eq_bind, Option.some_bind] at hrun
      exact runOps_length_le rest _ u'
        ((handleForm_length_le formId resp u).trans hlen) hrun

/-! ### The claims -/

/-- C9: from a fresh `User`, whatever interleaving of `SendForm` and
`HandleForm` operations runs (and whichever entries eviction picks), the
pending table `forms` never holds more than 11 entries: eviction fires
only once the table already exceeds 10 entries, so the bound actually
maintained is 11, not the nominal capacity of 10. -/
theorem pending_table_bounded (ops : List Op) (u : UserState)
    (hrun : runOps newUser ops = some u) : u.forms.length ≤ 11 :=
  runOps_length_le ops newUser u (by decide) hrun

/-- Witness for C9: the fresh session is a reachable state within the bound. -/
theorem pending_table_bounded_witness :
    runOps newUser [] = some newUser ∧ newUser.forms.length ≤ 11 :=
  ⟨rfl, pending_table_bounded [] newUser rfl⟩

/-- C3: `HandleForm` on an identifier absent from the pending table
returns `false`, invokes no form's submit capability, and leaves the whole
session state — pending table and both id counters — unchanged. -/
theorem handleForm_unknown_id (formId : Nat) (resp : List Nat) (u : UserState)
    (hf : mapLookup formId u.forms = none) :
    handleForm formId resp u = (u, false, false) := by
  unfold handleForm
  rw [hf]

/-- Witness for C3: id 5 was never issued on a fresh session. -/
theorem handleForm_unknown_id_witness :
    handleForm 5 [49] newUser = (newUser, false, false) :=
  handleForm_unknown_id 5 [49] newUser rfl

/-- C4: `HandleForm` on a pending identifier with response bytes that are
empty or exactly the five bytes of `"null\n"` returns `true`, does not
invoke the form's submit capability, and removes the pending entry. -/
theorem handleForm_cancellation (formId : Nat) (resp : List Nat) (u : UserState)
    (f : Form) (hf : mapLookup formId u.forms = some f)
    (hr : resp = nullBytes ∨ resp = []) :
    handleForm formId resp u =
      ({ u with forms := mapErase formId u.forms }, true, false) ∧
    mapLookup formId (handleForm formId resp u).1.forms = none := by
  have hcond : resp = nullBytes ∨ resp.length = 0 := by
    rcases hr with h | h
    · exact Or.inl h
    · rw [h]
      exact Or.inr rfl
  have heq : handleForm formId resp u =
      ({ u with forms := mapErase formId u.forms }, true, false) := by
    unfold handleForm
    rw [hf]
    dsimp only
    rw [if_pos hcond]
  refine ⟨heq, ?_⟩
  rw [heq]
  exact mapLookup_mapErase_self formId u.forms

/-- Witness for C4: a `"null\n"` response to the just-sent test form. -/
theorem handleForm_cancellation_witness :
    handleForm 1 nullBytes testSentState =
      ({ testSentState with forms := mapErase 1 testSentState.forms }, true, false) ∧
    mapLookup 1 (handleForm 1 nullBytes testSentState).1.forms = none :=
  handleForm_cancellation 1 nullBytes testSentState testForm rfl (Or.inl rfl)

/-- C2: the first `HandleForm` call that finds an identifier removes its
pending entry whatever the response bytes and whatever the submit outcome,
so a second call with the same identifier finds nothing: it returns
`false`, invokes no submit capability, and changes nothing — each response
is delivered to its form at most once. -/
theorem handleForm_at_most_once (formId : Nat) (resp : List Nat) (u : UserState)
    (f : Form) (hf : mapLookup formId u.forms = some f) :
    (handleForm formId resp u).1.forms = mapErase formId u.forms ∧
    mapLookup formId (handleForm formId resp u).1.forms = none ∧
    ∀ resp2 : List Nat, handleForm formId resp2 (handleForm formId resp u).1 =
      ((handleForm formId resp u).1, false, false) := by
  have hfst := handleForm_fst_of_lookup_some resp hf
  have hnone : mapLookup formId (handleForm formId resp u).1.forms = none := by
    rw [hfst]
    exact mapLookup_mapErase_self formId u.forms
  refine ⟨by rw [hfst], hnone, fun resp2 => ?_⟩
  exact handleForm_lookup_none resp2 hnone

/-- Witness for C2: a data response to the just-sent test form; the second
delivery of the same identifier is rejected. -/
theorem handleForm_at_most_once_witness :
    (handleForm 1 [49] testSentState).1.forms = mapErase 1 testSentState.forms ∧
    mapLookup 1 (handleForm 1 [49] testSentState).1.forms = none ∧
    ∀ resp2 : List Nat, handleForm 1 resp2 (handleForm 1 [49] testSentState).1 =
      ((handleForm 1 [49] testSentState).1, false, false) :=
  handleForm_at_most_once 1 [49] testSentState testForm rfl

/-- C5: on a session with no uint32 wraparound yet, each `SendForm`
assigns the successor (mod `2^32`) of the previous identifier — so ids run
1, 2, 3, … from a fresh session — the `Local()` counter holds the
last-assigned id, and the new id is not currently pending. -/
theorem sendForm_ids_increasing_fresh (ops : List Op) (u u' : UserState)
    (c id : Nat) (f : Form) (d : Doc)
    (hrun : runOps newUser ops = some u)
    (hn : numSends ops + 1 < 2 ^ 32)
    (hsend : sendForm c f u = some (u', id, d)) :
    id = (u.localFormId + 1) % 2 ^ 32 ∧
    id = numSends ops + 1 ∧
    u'.localFormId = id ∧
    mapLookup id u.forms = none := by
  have hinv := reachable_sessionInv hrun (by omega)
  have hstep := sessionInv_send hn hinv hsend
  obtain ⟨-, hid, hl', -, -⟩ := sendForm_spec hsend
  refine ⟨hid, hstep.1, hl', ?_⟩
  apply mapLookup_eq_none_of_forall_ne
  intro p hp
  have hbound := hinv.2 p hp
  have hfresh := hstep.1
  omega

/-- Witness for C5: the first send on a fresh session assigns id 1. -/
theorem sendForm_ids_increasing_fresh_witness :
    1 = (newUser.localFormId + 1) % 2 ^ 32 ∧
    1 = numSends [] + 1 ∧
    testSentState.localFormId = 1 ∧
    mapLookup 1 newUser.forms = none :=
  sendForm_ids_increasing_fresh [] newUser testSentState 0 1 testForm testDoc
    rfl (by decide) rfl

/-- C1 counterexample: eleven `SendForm` calls on a fresh session with no
`HandleForm` in between leave all eleven entries pending — ids 1 through
11, nothing evicted — not the ten entries the claim asserts. -/
theorem eleven_sends_leave_eleven_pending :
    (runOps newUser elevenSends).map (fun u => u.forms.map Prod.fst) =
      some [1, 2, 3, 4, 5, 6, 7, 8, 9, 10, 11] ∧
    (runOps newUser elevenSends).map (fun u => u.forms.length) = some 11 :=
  ⟨rfl, rfl⟩

/-- C1 amended: `SendForm` evicts exactly one arbitrary existing entry
before inserting only when the pending table already holds strictly more
than 10 entries (i.e. at least 11): from a reachable state, a send grows
the table by one entry when at most 10 are pending and keeps its size —
one evicted, one inserted — when more than 10 are; accordingly eleven
sends on a fresh session leave eleven entries pending, with none of the
eleven evicted. -/
theorem sendForm_eviction_threshold (ops : List Op) (u u' : UserState)
    (c id : Nat) (f : Form) (d : Doc)
    (hrun : runOps newUser ops = some u)
    (hn : numSends ops + 1 < 2 ^ 32)
    (hsend : sendForm c f u = some (u', id, d)) :
    u'.forms.length =
      if u.forms.length > 10 then u.forms.length else u.forms.length + 1 := by
  have hinv := reachable_sessionInv hrun (by omega)
  have hid := (sessionInv_send hn hinv hsend).1
  obtain ⟨-, -, -, -, hforms⟩ := sendForm_spec hsend
  have hfresh : ∀ p ∈ u.forms, p.1 ≠ id := by
    intro p hp
    have hbound := hinv.2 p hp
    omega
  rw [hforms]
  by_cases h10 : u.forms.length > 10
  · rw [if_pos h10, if_pos h10]
    have hmod : c % u.forms.length < u.forms.length := Nat.mod_lt _ (by omega)
    have hfresh' : ∀ p ∈ u.forms.eraseIdx (c % u.forms.length), p.1 ≠ id :=
      fun p hp => hfresh p (List.eraseIdx_subset _ _ hp)
    rw [mapInsert, mapErase_eq_self_of_forall_ne _ _ hfresh', List.length_append,
      List.length_eraseIdx, if_pos hmod]
    simp
    omega
  · rw [if_neg h10, if_neg h10, mapInsert,
      mapErase_eq_self_of_forall_ne _ _ hfresh, List.length_append]
    simp

/-- Witness for C1's amended statement: the first send, with nothing
pending, grows the table from 0 to 1 entries. -/
theorem sendForm_eviction_threshold_witness :
    testSentState.forms.length =
      if newUser.forms.length > 10 then newUser.forms.length
      else newUser.forms.length + 1 :=
  sendForm_eviction_threshold [] newUser testSentState 0 1 testForm testDoc
    rfl (by decide) rfl

/-! ### Encoder claims -/

theorem elemToMap_eq_none_iff (e : Element) :
    elemToMap e = none ↔ e = Element.other := by
  cases e <;> simp [elemToMap]

theorem elemsToMaps_eq_none_iff (es : List Element) :
    elemsToMaps es = none ↔ Element.other ∈ es := by
  induction es with
  | nil => simp [elemsToMaps]
  | cons e rest ih =>
      rw [elemsToMaps]
      cases he : elemToMap e with
      | none =>
          have heq := (elemToMap_eq_none_iff e).mp he
          subst heq
          simp
      | some d =>
          have hne : e ≠ Element.other := by
            intro h
            subst h
            simp [elemToMap] at he
          cases hr : elemsToMaps rest with
          | none => simp [ih.mp hr]
          | some ds =>
              simp only [Option.bind_eq_bind, Option.some_bind, hr]
              simp only [pure, Option.bind_some]
              constructor
              · intro h
                cases h
              · intro h
                rcases List.mem_cons.mp h with h | h
                · exact absurd h.symm hne
                · exact absurd ((ih.mpr h).symm.trans hr) (by simp)

/-- C6 counterexample: a form value outside the closed variant set does
not make the encoder panic — `SendForm`'s type switch has no default case,
so the document stays the empty map. -/
theorem unrecognized_form_encodes_without_panic :
    formToMap FormData.other = some [] := rfl

/-- C6 amended: the encoder is pure and total over the closed Form and
Element variant sets, and it panics exactly when an unrecognized *element*
variant is encountered (inside a Custom form); an unrecognized *form*
variant does not panic — it encodes to the empty document. -/
theorem encoder_totality :
    (∀ e : Element, elemToMap e = none ↔ e = Element.other) ∧
    (∀ (title : String) (elements : List Element),
      formToMap (.custom title elements) = none ↔ Element.other ∈ elements) ∧
    (∀ (title body : String) (buttons : List Button),
      formToMap (.menu title body buttons) =
        some [("type", Val.s "form"), ("title", Val.s title), ("content", Val.s body),
              ("buttons", Val.arr (buttons.map buttonToMap))]) ∧
    (∀ (title body : String) (b1 b2 : Button),
      formToMap (.modal title body b1 b2) =
        some [("type", Val.s "modal"), ("title", Val.s title), ("content", Val.s body),
              ("button1", Val.s b1.text), ("button2", Val.s b2.text)]) ∧
    formToMap FormData.other = some [] := by
  refine ⟨elemToMap_eq_none_iff, ?_, fun _ _ _ => rfl, fun _ _ _ _ => rfl, rfl⟩
  intro title elements
  rw [formToMap]
  cases hes : elemsToMaps elements with
  | none => simp [(elemsToMaps_eq_none_iff elements).mp hes]
  | some ds =>
      simp only [Option.bind_eq_bind, Option.some_bind, pure]
      constructor
      · intro h
        cases h
      · intro h
        exact absurd (((elemsToMaps_eq_none_iff elements).mpr h).symm.trans hes)
          (by simp)

/-- C7: each element variant encodes to a map holding exactly its type
tag, its text, and its documented extra fields: toggle/default,
input/default+placeholder, label/none, slider/min+max+step+default,
dropdown/default+options, step_slider/default+steps. -/
theorem elemToMap_documented_fields :
    (∀ (text : String) (dflt : Bool), elemToMap (.toggle text dflt) =
      some [("type", Val.s "toggle"), ("text", Val.s text), ("default", Val.b dflt)]) ∧
    (∀ text dflt placeholder : String, elemToMap (.input text dflt placeholder) =
      some [("type", Val.s "input"), ("text", Val.s text), ("default", Val.s dflt),
            ("placeholder", Val.s placeholder)]) ∧
    (∀ text : String, elemToMap (.label text) =
      some [("type", Val.s "label"), ("text", Val.s text)]) ∧
    (∀ (text : String) (mn mx stepSize dflt : Rat),
      elemToMap (.slider text mn mx stepSize dflt) =
      some [("type", Val.s "slider"), ("text", Val.s text), ("min", Val.f mn),
            ("max", Val.f mx), ("step", Val.f stepSize), ("default", Val.f dflt)]) ∧
    (∀ (text : String) (options : List String) (defaultIndex : Int),
      elemToMap (.dropdown text options defaultIndex) =
      some [("type", Val.s "dropdown"), ("text", Val.s text),
            ("default", Val.i defaultIndex), ("options", Val.strs options)]) ∧
    (∀ (text : String) (options : List String) (defaultIndex : Int),
      elemToMap (.stepSlider text options defaultIndex) =
      some [("type", Val.s "step_slider"), ("text", Val.s text),
            ("default", Val.i defaultIndex), ("steps", Val.strs options)]) :=
  ⟨fun _ _ => rfl, fun _ _ _ => rfl, fun _ => rfl, fun _ _ _ _ _ => rfl,
   fun _ _ _ => rfl, fun _ _ _ => rfl⟩

/-- C8: a menu encodes its buttons elementwise; a button's image field is
omitted exactly when its image reference is empty, and otherwise carries
type "url" precisely when the reference starts with "http:" or "https:"
("path" otherwise) with the reference itself as data. -/
theorem menu_button_image_encoding :
    (∀ (title body : String) (buttons : List Button),
      formToMap (.menu title body buttons) =
        some [("type", Val.s "form"), ("title", Val.s title), ("content", Val.s body),
              ("buttons", Val.arr (buttons.map buttonToMap))]) ∧
    (∀ b : Button, buttonToMap b =
      if b.image = "" then [("text", Val.s b.text)]
      else [("text", Val.s b.text),
            ("image", Val.obj [("type", Val.s (if imageIsUrl b.image then "url" else "path")),
                               ("data", Val.s b.image)])]) ∧
    (∀ image : String, imageIsUrl image =
      (String.isPrefixOf "http:" image || String.isPrefixOf "https:" image)) := by
  refine ⟨fun _ _ _ => rfl, fun b => ?_, fun _ => rfl⟩
  by_cases h : b.image = "" <;> simp [buttonToMap, h]

/-- C10: a form value outside the three recognized variants does not make
`SendForm` panic: the payload sent is the empty JSON object, a fresh
identifier is still assigned, and the unrecognized form is still inserted
into the pending table under that identifier. -/
theorem sendForm_unrecognized_form (c : Nat) (sub : List Nat → Bool) (u : UserState) :
    ∃ u' : UserState,
      sendForm c { data := FormData.other, submit := sub } u =
        some (u', (u.localFormId + 1) % 2 ^ 32, ([] : Doc)) ∧
      marshalDoc [] = "\x7b\x7d" ∧
      u'.localFormId = (u.localFormId + 1) % 2 ^ 32 ∧
      mapLookup ((u.localFormId + 1) % 2 ^ 32) u'.forms =
        some { data := FormData.other, submit := sub } := by
  refine ⟨_, rfl, rfl, rfl, ?_⟩
  exact mapLookup_mapInsert_self _ _ _

end Gopherforms
